import Mathlib

/-!
Verification of the FluxVoice recording-session controller and transcription
history store against their specification.

The Lean definitions below are shallow embeddings of the TypeScript source:

* `RecordingState`, `TranscriptionHistoryItem` — src/types/config.ts and the
  store model of src/unnamed/part_010 / src/store/appStore.ts;
* `AppStore.addToHistory` — the capped store variant (src/store/appStore.ts);
* `Part010Store.addToHistory` — the uncapped store variant (src/unnamed/part_010);
* `fromBackend` / `toBackend` and the `BackendHistory` namespace — the
  backend-authoritative history hook (src/unnamed/part_007);
* `AudioStorage` — src/utils/audioStorage.ts (IndexedDB blob store);
* the `Controller` state machine — the defensive (lock-guarded) variant of
  `useAudioRecording` in src/hooks/useAudioRecording.ts; the JavaScript event
  loop is single threaded, so an execution is a sequence of atomic segments
  separated by `await` points, modelled as events fed to a step function;
* the `Coord` state machine — the hotkey coordinator of
  src/components/FloatingWindow/FloatingWindow.tsx.
-/

deriving instance DecidableEq for Except

namespace FluxVoice

/-- Recording state, from src/types/config.ts:
`export type RecordingState = 'idle' | 'recording' | 'processing' | 'error'`. -/
inductive RecordingState where
  | idle
  | recording
  | processing
  | error
deriving DecidableEq, Repr

/-- Frontend history item, from the store of src/unnamed/part_010 (also the
item type of src/unnamed/part_007): `{original, polished: string | null,
finalText, timestamp, audioData?: number[]}`.  `polished = none` models `null`,
`audioData = none` models `undefined`. -/
structure TranscriptionHistoryItem where
  original : String
  polished : Option String
  finalText : String
  timestamp : Int
  audioData : Option (List Nat)
deriving DecidableEq, Repr

/-- Backend wire-format history item, from src/unnamed/part_007:
`{original, polished: string | null, final_text, timestamp,
audio_data: number[] | null}`.  `none` models `null`. -/
structure BackendHistoryItem where
  original : String
  polished : Option String
  final_text : String
  timestamp : Int
  audio_data : Option (List Nat)
deriving DecidableEq, Repr

/-- `fromBackend` of src/unnamed/part_007.  The source maps
`audioData: item.audio_data ?? undefined`; since both `null` and `undefined`
are modelled as `none`, the `??` collapses to the identity on `Option`. -/
def fromBackend (item : BackendHistoryItem) : TranscriptionHistoryItem :=
  { original := item.original
    polished := item.polished
    finalText := item.final_text
    timestamp := item.timestamp
    audioData := item.audio_data }

/-- `toBackend` of src/unnamed/part_007.  The source maps
`audio_data: item.audioData ?? null`; as in `fromBackend` the `??` is the
identity on `Option`. -/
def toBackend (item : TranscriptionHistoryItem) : BackendHistoryItem :=
  { original := item.original
    polished := item.polished
    final_text := item.finalText
    timestamp := item.timestamp
    audio_data := item.audioData }

namespace AppStore

/-- History item of the capped store variant (src/store/appStore.ts), which
has no `audioData` field. -/
structure HistoryItem where
  original : String
  polished : Option String
  finalText : String
  timestamp : Int
deriving DecidableEq, Repr

/-- `const MAX_HISTORY_ITEMS = 20` of src/store/appStore.ts. -/
def MAX_HISTORY_ITEMS : Nat := 20

/-- `addToHistory` of src/store/appStore.ts: prepend an item stamped with
`Date.now()` (passed here as `now`) and reapply the cap via
`.slice(0, MAX_HISTORY_ITEMS)`. -/
def addToHistory (now : Int) (original : String) (polished : Option String)
    (finalText : String) (history : List HistoryItem) : List HistoryItem :=
  (({ original := original, polished := polished, finalText := finalText,
      timestamp := now } : HistoryItem) :: history).take MAX_HISTORY_ITEMS

/-- Arguments of one `addToHistory` call: the `Date.now()` value followed by
`original`, `polished`, `finalText`. -/
abbrev AddArgs := Int × String × Option String × String

/-- The item a single `addToHistory` call prepends. -/
def mkItem (a : AddArgs) : HistoryItem :=
  { original := a.2.1, polished := a.2.2.1, finalText := a.2.2.2,
    timestamp := a.1 }

/-- A sequence of `addToHistory` calls, applied left to right. -/
def addAll (adds : List AddArgs) (history : List HistoryItem) :
    List HistoryItem :=
  adds.foldl (fun h a => addToHistory a.1 a.2.1 a.2.2.1 a.2.2.2 h) history

end AppStore

namespace Part010Store

/-- `addToHistory` of the store variant in src/unnamed/part_010 (the variant
whose signature carries `audioData` and an optional `timestamp`): it prepends
`{..., timestamp: timestamp ?? Date.now(), audioData}` and applies no cap.
`now` stands for `Date.now()`. -/
def addToHistory (now : Int) (original : String) (polished : Option String)
    (finalText : String) (audioData : Option (List Nat))
    (timestamp? : Option Int) (history : List TranscriptionHistoryItem) :
    List TranscriptionHistoryItem :=
  ({ original := original, polished := polished, finalText := finalText,
     timestamp := timestamp?.getD now, audioData := audioData } :
     TranscriptionHistoryItem) :: history

end Part010Store

/-- A concrete 20-item history list, input of the C4 counterexample. -/
def history20 : List TranscriptionHistoryItem :=
  (List.range 20).map fun i =>
    { original := "o", polished := none, finalText := "t",
      timestamp := (i : Int), audioData := none }

/-- Concrete arguments for 25 consecutive adds with strictly increasing
timestamps, input of the C4 witness. -/
def adds25 : List AppStore.AddArgs :=
  (List.range 25).map fun i => ((i : Int), "a", (none : Option String), "b")

namespace BackendHistory

/-- Remote (Tauri `invoke`) calls the backend-authoritative history hook of
src/unnamed/part_007 can issue. -/
inductive HBCall where
  | save_history_item (item : BackendHistoryItem)
  | clear_history
deriving DecidableEq, Repr

/-- State visible to the hook of src/unnamed/part_007: the in-memory list of
the store, plus the log of remote calls issued so far. -/
structure HookState where
  transcriptionHistory : List TranscriptionHistoryItem
  calls : List HBCall
deriving DecidableEq, Repr

/-- `addToHistory` of src/unnamed/part_007: stamp `Date.now()` (`now`),
apply the in-memory store update first (`storeAddToHistory`, the uncapped
part_010 prepend), then `await invoke('save_history_item', ...)`; the remote
outcome `saveResult` is only logged, in both branches the state is the same. -/
def addToHistory (now : Int) (original : String) (polished : Option String)
    (finalText : String) (audioData : Option (List Nat))
    (saveResult : Except String Unit) (s : HookState) : HookState :=
  let item : TranscriptionHistoryItem :=
    { original := original, polished := polished, finalText := finalText,
      timestamp := now, audioData := audioData }
  let s1 : HookState :=
    { transcriptionHistory :=
        Part010Store.addToHistory now original polished finalText audioData
          (some now) s.transcriptionHistory
      calls := s.calls ++ [.save_history_item (toBackend item)] }
  match saveResult with
  | .ok _ => s1
  | .error _ => s1

/-- `clearHistory` of src/unnamed/part_007: `await invoke('clear_history')`
first; `storeClearHistory()` runs only when that call succeeds — the catch
block only logs, leaving the in-memory list untouched. -/
def clearHistory (clearResult : Except String Unit) (s : HookState) :
    HookState :=
  match clearResult with
  | .ok _ => { transcriptionHistory := [], calls := s.calls ++ [.clear_history] }
  | .error _ => { transcriptionHistory := s.transcriptionHistory,
                  calls := s.calls ++ [.clear_history] }

/-- A hook state with one stored item, input of the C8 counterexample. -/
def oneItemState : HookState :=
  { transcriptionHistory :=
      [{ original := "o", polished := none, finalText := "t", timestamp := 1,
         audioData := none }]
    calls := [] }

end BackendHistory

namespace AudioStorage

/-- Environment of one call into src/utils/audioStorage.ts.  `setupResult` is
the outcome of the awaited `openDB()` / `db.transaction(...)` prefix (those
run inside the `try`, so their failures are caught); `records` is the content
of the `audio_recordings` object store; `requestFails = some e` means the IDB
request itself fires `onerror` with `e` — that rejects the promise the
function returns, and because the promise is returned rather than awaited,
the surrounding try/catch cannot intercept that rejection. -/
structure IDBEnv where
  setupResult : Except String Unit
  records : List (Int × List Nat)
  requestFails : Option String
deriving DecidableEq, Repr

/-- `getAudioData` of src/utils/audioStorage.ts.  Setup failure is caught
(`console.error`; `return null`).  A request-level failure propagates as a
rejection of the returned promise.  Otherwise the record is looked up and
`result ? result.audioData : null` is resolved. -/
def getAudioData (env : IDBEnv) (timestamp : Int) :
    Except String (Option (List Nat)) :=
  match env.setupResult with
  | .error _ => .ok none
  | .ok _ =>
      match env.requestFails with
      | some e => .error e
      | none => .ok (env.records.lookup timestamp)

/-- `saveAudioData` of src/utils/audioStorage.ts; the value is the resulting
record list.  Setup failure is caught and swallowed (store unchanged, the
function resolves).  A request-level failure propagates as a rejection of the
returned promise.  Otherwise `store.put` upserts by `timestamp`. -/
def saveAudioData (env : IDBEnv) (timestamp : Int) (audioData : List Nat) :
    Except String (List (Int × List Nat)) :=
  match env.setupResult with
  | .error _ => .ok env.records
  | .ok _ =>
      match env.requestFails with
      | some e => .error e
      | none =>
          .ok ((timestamp, audioData) ::
            env.records.filter (fun p => p.1 != timestamp))

/-- Environment in which setup succeeds but the IDB request itself fails,
input of the C5 failing-input theorem. -/
def requestFailEnv : IDBEnv :=
  { setupResult := .ok (), records := [(5, [1, 2, 3])],
    requestFails := some "request error" }

/-- One call to `openDB()` of src/utils/audioStorage.ts.  `cell` is the
module-level `dbPromise` (`none` when it is still `null`); `attempt` is the
outcome the environment would produce if `indexedDB.open` were attempted now.
Returns the new cell, the result this caller receives, and whether an open
was actually attempted.  The source stores the promise in the cell before its
outcome is known and never clears it, so the first caller's outcome — success
or failure — is what every caller receives. -/
def openDB (cell : Option (Except String Unit)) (attempt : Except String Unit) :
    Option (Except String Unit) × Except String Unit × Bool :=
  match cell with
  | some r => (some r, r, false)
  | none => (some attempt, attempt, true)

/-- Folding state for a sequence of `openDB` calls: the cell, the list of
results the callers received, and the number of open attempts made. -/
def openDBAcc := Option (Except String Unit) × List (Except String Unit) × Nat

/-- Run a sequence of `openDB` calls from the initial `dbPromise = null`
state; `attempts` lists the would-be outcome of each call's open attempt. -/
def openDBRun (attempts : List (Except String Unit)) :
    Option (Except String Unit) × List (Except String Unit) × Nat :=
  attempts.foldl
    (fun acc a =>
      let r := openDB acc.1 a
      (r.1, acc.2.1 ++ [r.2.1], acc.2.2 + (if r.2.2 then 1 else 0)))
    (none, [], 0)

end AudioStorage

/-- Result of the remote `transcribe_and_insert` call, from the defensive
variant of src/hooks/useAudioRecording.ts:
`{original, polished: string | null, final_text}`. -/
structure TranscribeResult where
  original : String
  polished : Option String
  final_text : String
deriving DecidableEq, Repr

namespace Controller

/-- Remote (Tauri `invoke`) calls the controller can issue. -/
inductive RemoteCall where
  | start_recording
  | stop_recording
  | transcribe_and_insert (audioData : List Nat)
  | save_history_item (item : BackendHistoryItem)
  | update_stats (characters : Nat) (durationSecs : Nat)
deriving DecidableEq, Repr

/-- Suspension point of an in-flight operation.  Each constructor marks one
`await` of the defensive `useAudioRecording` variant, carrying the local
variables live across that await. -/
inductive PendingOp where
  | startAwaitBegin
  | stopAwaitCapture (capturedDuration : Nat)
  | stopAwaitTranscribe (capturedDuration : Nat) (audioData : List Nat)
  | stopAwaitSave (capturedDuration : Nat) (finalText : String)
  | stopAwaitStats
deriving DecidableEq, Repr

/-- The zustand store fields written by the controller (src/unnamed/part_010
store shape).  `audioLevel` values come from the environment; the controller
itself only ever writes `0`. -/
structure Store where
  recordingState : RecordingState
  audioLevel : Int
  transcription : String
  error : Option String
  uploadSize : Option Nat
  recordingStartTime : Option Int
  recordingDuration : Nat
  transcriptionHistory : List TranscriptionHistoryItem
deriving DecidableEq, Repr

/-- Full controller state: the store, the two interval handles, the
module-level `isOperationInProgress` lock, the multiset of operations
suspended at an await (kept as a list so that mutual exclusion is a proved
invariant, not a typing assumption), the log of remote calls issued, and the
pending one-shot `setTimeout` delays whose callback clears the error. -/
structure ControllerState where
  store : Store
  intervalId : Option Nat
  durationIntervalId : Option Nat
  isOperationInProgress : Bool
  pending : List PendingOp
  calls : List RemoteCall
  errorTimers : List Nat
  nextTimerId : Nat
deriving DecidableEq, Repr

/-- Events driving the controller: operation entry calls, settlement of each
awaited remote call, and the firing of a scheduled clear-error timeout. -/
inductive Ev where
  | callStart (now : Int)
  | callStop
  | beginDone (r : Except String Unit)
  | captureDone (r : Except String (List Nat))
  | transcribeDone (now : Int) (r : Except String TranscribeResult)
  | saveDone (r : Except String Unit)
  | statsDone (r : Except String Unit)
  | fireErrorTimer
deriving DecidableEq, Repr

/-- Synchronous prefix of `startRecording` (defensive variant), up to
`await invoke('start_recording')`: if the lock is held, return with no state
change at all; otherwise take the lock, clear leftover intervals, reset
error/uploadSize/duration/level, play the start tone, record
`recordingStartTime = Date.now()`, enter `recording`, and issue the remote
begin-capture call. -/
def startRecordingEntry (now : Int) (s : ControllerState) : ControllerState :=
  if s.isOperationInProgress then s
  else
    { s with
      isOperationInProgress := true
      intervalId := none
      durationIntervalId := none
      store := { s.store with
        error := none
        uploadSize := none
        recordingDuration := 0
        audioLevel := 0
        recordingStartTime := some now
        recordingState := .recording }
      calls := s.calls ++ [.start_recording]
      pending := s.pending ++ [.startAwaitBegin] }

/-- Continuation of `startRecording` after `invoke('start_recording')`
settles.  On success the two periodic intervals are installed and the
`finally` releases the lock.  On failure the catch sets the error, returns
the state directly to `idle`, clears `recordingStartTime`, schedules a
3000 ms `setTimeout` that clears only the error, and the `finally` releases
the lock. -/
def startRecordingResume (r : Except String Unit) (s : ControllerState) :
    ControllerState :=
  match r with
  | .ok _ =>
      { s with
        intervalId := some s.nextTimerId
        durationIntervalId := some (s.nextTimerId + 1)
        nextTimerId := s.nextTimerId + 2
        isOperationInProgress := false }
  | .error e =>
      { s with
        store := { s.store with
          error := some e
          recordingState := .idle
          recordingStartTime := none }
        errorTimers := s.errorTimers ++ [3000]
        isOperationInProgress := false }

/-- Synchronous prefix of `stopRecording` (defensive variant), up to
`await invoke('stop_recording')`: if the lock is held, return with no state
change; otherwise take the lock, capture the current duration, clear both
intervals, enter `processing`, clear `recordingStartTime`, and issue the
remote finalize-capture call. -/
def stopRecordingEntry (s : ControllerState) : ControllerState :=
  if s.isOperationInProgress then s
  else
    { s with
      isOperationInProgress := true
      intervalId := none
      durationIntervalId := none
      store := { s.store with
        recordingState := .processing
        recordingStartTime := none }
      calls := s.calls ++ [.stop_recording]
      pending := s.pending ++ [.stopAwaitCapture s.store.recordingDuration] }

/-- Continuation of `stopRecording` after `invoke('stop_recording')` settles.
On success the upload size is recorded (`if (audioData)` — an array returned
from `invoke` is truthy in JavaScript even when empty) and the transcription
call is issued.  On failure the catch sets the error, returns the state to
`idle`, zeroes level/uploadSize/duration, releases the lock explicitly,
schedules the 3000 ms clear-error timeout, and returns — phase 2 is never
reached. -/
def stopCaptureResume (d : Nat) (r : Except String (List Nat))
    (s : ControllerState) : ControllerState :=
  match r with
  | .ok audioData =>
      { s with
        store := { s.store with uploadSize := some audioData.length }
        calls := s.calls ++ [.transcribe_and_insert audioData]
        pending := [.stopAwaitTranscribe d audioData] }
  | .error e =>
      { s with
        store := { s.store with
          error := some e
          recordingState := .idle
          audioLevel := 0
          uploadSize := none
          recordingDuration := 0 }
        isOperationInProgress := false
        errorTimers := s.errorTimers ++ [3000]
        pending := [] }

/-- Continuation of `stopRecording` after `invoke('transcribe_and_insert')`
settles.  On success the transcription is published; when the final text is
truthy and non-blank after trimming, the item is prepended to the history
(the uncapped part_010 `addToHistory`, with `timestamp = Date.now()` passed
as `now`) and the backend save is issued.  Otherwise the state returns to
`idle` and the `finally` releases the lock.  On failure the catch sets the
error, returns to `idle`, schedules the 3000 ms clear-error timeout, and the
`finally` releases the lock. -/
def stopTranscribeResume (d : Nat) (audioData : List Nat) (now : Int)
    (r : Except String TranscribeResult) (s : ControllerState) :
    ControllerState :=
  match r with
  | .ok result =>
      let s1 : ControllerState :=
        { s with store := { s.store with transcription := result.final_text } }
      if result.final_text ≠ "" ∧ result.final_text.trim ≠ "" then
        { s1 with
          store := { s1.store with
            transcriptionHistory :=
              Part010Store.addToHistory now result.original result.polished
                result.final_text (some audioData) (some now)
                s1.store.transcriptionHistory }
          calls := s1.calls ++
            [.save_history_item
              { original := result.original, polished := result.polished,
                final_text := result.final_text, timestamp := now,
                audio_data := some audioData }]
          pending := [.stopAwaitSave d result.final_text] }
      else
        { s1 with
          store := { s1.store with
            recordingState := .idle
            audioLevel := 0
            recordingDuration := 0 }
          isOperationInProgress := false
          pending := [] }
  | .error e =>
      { s with
        store := { s.store with
          error := some e
          recordingState := .idle
          audioLevel := 0
          recordingDuration := 0 }
        errorTimers := s.errorTimers ++ [3000]
        isOperationInProgress := false
        pending := [] }

/-- Continuation after `invoke('save_history_item')` settles: both the
success and the failure branch only log, then the stats update is issued. -/
def stopSaveResume (d : Nat) (finalText : String) (r : Except String Unit)
    (s : ControllerState) : ControllerState :=
  match r with
  | .ok _ =>
      { s with
        calls := s.calls ++ [.update_stats finalText.length d]
        pending := [.stopAwaitStats] }
  | .error _ =>
      { s with
        calls := s.calls ++ [.update_stats finalText.length d]
        pending := [.stopAwaitStats] }

/-- Continuation after `invoke('update_stats')` settles: both branches only
log; the tail of the success path returns to `idle`, zeroes level and
duration, and the `finally` releases the lock. -/
def stopStatsResume (r : Except String Unit) (s : ControllerState) :
    ControllerState :=
  match r with
  | .ok _ =>
      { s with
        store := { s.store with
          recordingState := .idle
          audioLevel := 0
          recordingDuration := 0 }
        isOperationInProgress := false
        pending := [] }
  | .error _ =>
      { s with
        store := { s.store with
          recordingState := .idle
          audioLevel := 0
          recordingDuration := 0 }
        isOperationInProgress := false
        pending := [] }

/-- One atomic segment of the event loop.  A settlement event resumes the
matching suspended operation; a settlement with no matching suspension is a
no-op.  `fireErrorTimer` runs one scheduled clear-error callback: it only
clears the error field (a stale timer firing after further transitions is a
benign no-op on everything else). -/
def step (s : ControllerState) (e : Ev) : ControllerState :=
  match e with
  | .callStart now => startRecordingEntry now s
  | .callStop => stopRecordingEntry s
  | .beginDone r =>
      match s.pending with
      | [.startAwaitBegin] => startRecordingResume r { s with pending := [] }
      | _ => s
  | .captureDone r =>
      match s.pending with
      | [.stopAwaitCapture d] => stopCaptureResume d r s
      | _ => s
  | .transcribeDone now r =>
      match s.pending with
      | [.stopAwaitTranscribe d a] => stopTranscribeResume d a now r s
      | _ => s
  | .saveDone r =>
      match s.pending with
      | [.stopAwaitSave d f] => stopSaveResume d f r s
      | _ => s
  | .statsDone r =>
      match s.pending with
      | [.stopAwaitStats] => stopStatsResume r s
      | _ => s
  | .fireErrorTimer =>
      match s.errorTimers with
      | [] => s
      | _ :: rest =>
          { s with
            errorTimers := rest
            store := { s.store with error := none } }

/-- Initial state: the store defaults of src/unnamed/part_010, no intervals,
lock free, nothing pending. -/
def initState : ControllerState :=
  { store :=
      { recordingState := .idle, audioLevel := 0, transcription := "",
        error := none, uploadSize := none, recordingStartTime := none,
        recordingDuration := 0, transcriptionHistory := [] }
    intervalId := none
    durationIntervalId := none
    isOperationInProgress := false
    pending := []
    calls := []
    errorTimers := []
    nextTimerId := 0 }

/-- Run a trace of events from the initial state. -/
def run (tr : List Ev) : ControllerState :=
  tr.foldl step initState

/-- Lock invariant: at most one operation is suspended at an await, and the
lock is held exactly while one is. -/
def lockInv (s : ControllerState) : Prop :=
  s.pending.length ≤ 1 ∧ (s.isOperationInProgress = true ↔ s.pending ≠ [])

/-- State after `startRecording` whose remote begin-capture call fails. -/
def afterStartFailure (s : ControllerState) (now : Int) (e : String) :
    ControllerState :=
  step (step s (.callStart now)) (.beginDone (.error e))

/-- State after `stopRecording` whose remote finalize-capture call fails. -/
def afterStopFinalizeFailure (s : ControllerState) (e : String) :
    ControllerState :=
  step (step s .callStop) (.captureDone (.error e))

/-- A reachable state with the lock free while the state is `recording`
(one successful `startRecording` has settled), input of the C1
counterexample. -/
def recordingUnlocked : ControllerState :=
  run [.callStart 0, .beginDone (.ok ())]

end Controller

namespace Coord

/-- Calls the hotkey coordinator dispatches into the recording hook. -/
inductive CoordCall where
  | start
  | stop
deriving DecidableEq, Repr

/-- Coordinator state, from src/components/FloatingWindow/FloatingWindow.tsx:
the `lastActionTime`, `isProcessingHotkey` and `pendingRelease` refs, the
`recordingStateRef` mirror of the store state, and the log of dispatched
start/stop calls. -/
structure CoordState where
  lastActionTime : Int
  isProcessingHotkey : Bool
  pendingRelease : Bool
  observedState : RecordingState
  out : List CoordCall
deriving DecidableEq, Repr

/-- Events the coordinator reacts to: the two hotkey signals (with the
`Date.now()` value), the effect that observes a store state change, and the
settlement of the awaited `startRecording()` (whose `finally` clears the
in-flight guard). -/
inductive CoordEv where
  | press (now : Int)
  | release (now : Int)
  | stateChanged (rs : RecordingState)
  | startSettled
deriving DecidableEq, Repr

/-- One coordinator handler execution, mirroring the source order exactly.
Press: debounce gate, in-flight-guard gate, then the state gate (honored
only from `idle`: set the guard, record the action time, clear any pending
release, dispatch start).  Release: debounce gate first; from `recording`
record the action time and dispatch stop; otherwise, if the guard is set,
mark a pending release.  State change: update the ref; at `idle` reset the
pending release; a pending release at `recording` dispatches stop. -/
def coordStep (s : CoordState) (e : CoordEv) : CoordState :=
  match e with
  | .press now =>
      if now - s.lastActionTime < 300 then s
      else if s.isProcessingHotkey then s
      else if s.observedState = .idle then
        { s with
          isProcessingHotkey := true
          lastActionTime := now
          pendingRelease := false
          out := s.out ++ [.start] }
      else s
  | .release now =>
      if now - s.lastActionTime < 300 then s
      else if s.observedState = .recording then
        { s with lastActionTime := now, out := s.out ++ [.stop] }
      else if s.isProcessingHotkey then
        { s with pendingRelease := true }
      else s
  | .stateChanged rs =>
      let s1 : CoordState := { s with observedState := rs }
      let s2 : CoordState :=
        if rs = .idle then { s1 with pendingRelease := false } else s1
      if s2.pendingRelease ∧ rs = .recording then
        { s2 with pendingRelease := false, out := s2.out ++ [.stop] }
      else s2
  | .startSettled => { s with isProcessingHotkey := false }

/-- Initial coordinator state (refs as initialized in the component). -/
def coordInit : CoordState :=
  { lastActionTime := 0, isProcessingHotkey := false, pendingRelease := false,
    observedState := .idle, out := [] }

end Coord

/-- Appending a memoized `openDB` fold over any further calls keeps the cell,
replays the stored result to every caller, and makes no further attempt. -/
theorem openDBRun_go (rest : List (Except String Unit))
    (r : Except String Unit) (res : List (Except String Unit)) (n : Nat) :
    rest.foldl
      (fun acc a =>
        let q := AudioStorage.openDB acc.1 a
        (q.1, acc.2.1 ++ [q.2.1], acc.2.2 + (if q.2.2 then 1 else 0)))
      (some r, res, n) =
    (some r, res ++ List.replicate rest.length r, n) := by
  induction rest generalizing res with
  | nil => simp
  | cons a as ih =>
      simp only [List.foldl_cons]
      rw [show AudioStorage.openDB (some r) a = (some r, r, false) from rfl]
      simp only [if_neg Bool.false_ne_true, Nat.add_zero]
      rw [ih]
      simp [List.replicate_succ]

/-- Claim C10: AudioBlobStore initialization is lazy and memoized — the open
is attempted at most once, the first call stores its outcome (success or
failure) in the `dbPromise` cell, every later call receives that same stored
outcome, and a set cell is never reset. -/
theorem openDB_memoized :
    (∀ (r a : Except String Unit),
        AudioStorage.openDB (some r) a = (some r, r, false)) ∧
    (∀ (a : Except String Unit) (rest : List (Except String Unit)),
        AudioStorage.openDBRun (a :: rest) =
          (some a, List.replicate (rest.length + 1) a, 1)) ∧
    (∀ attempts : List (Except String Unit),
        (AudioStorage.openDBRun attempts).2.2 ≤ 1) := by
  refine ⟨fun r a => rfl, ?_, ?_⟩
  · intro a rest
    simp only [AudioStorage.openDBRun, List.foldl_cons]
    rw [show AudioStorage.openDB none a = (some a, a, true) from rfl]
    simp only [if_pos rfl, List.nil_append, Nat.zero_add]
    rw [openDBRun_go]
    simp [List.replicate_succ]
  · intro attempts
    cases attempts with
    | nil => simp [AudioStorage.openDBRun]
    | cons a rest =>
        have h : AudioStorage.openDBRun (a :: rest) =
            (some a, List.replicate (rest.length + 1) a, 1) := by
          simp only [AudioStorage.openDBRun, List.foldl_cons]
          rw [show AudioStorage.openDB none a = (some a, a, true) from rfl]
          simp only [if_pos rfl, List.nil_append, Nat.zero_add]
          rw [openDBRun_go]
          simp [List.replicate_succ]
        rw [h]

/-- Claim C9: the camelCase/snake_case adapter is total and lossless: both
round trips are identities (the `undefined`/`null` normalization of
`audioData` collapses to the identity once both are read as `Option`), and
`original`, `polished`, `final_text` and `timestamp` are preserved exactly. -/
theorem backend_adapter_roundtrip :
    (∀ x : TranscriptionHistoryItem, fromBackend (toBackend x) = x) ∧
    (∀ y : BackendHistoryItem, toBackend (fromBackend y) = y) ∧
    (∀ y : BackendHistoryItem,
        (fromBackend y).original = y.original ∧
        (fromBackend y).polished = y.polished ∧
        (fromBackend y).finalText = y.final_text ∧
        (fromBackend y).timestamp = y.timestamp) :=
  ⟨fun _ => rfl, fun _ => rfl, fun _ => ⟨rfl, rfl, rfl, rfl⟩⟩

/-- Claim C5, failing input: when store setup succeeds but the IndexedDB
request itself fails, both `getAudioData` and `saveAudioData` reject — the
`return new Promise(...)` inside the `try` is returned without being awaited,
so its rejection bypasses the catch block and reaches the caller.  The last
two conjuncts show the branches that do behave fail-open: a setup failure is
caught and yields `null`, and an absent key yields `null`. -/
theorem audioStorage_request_failure_propagates :
    AudioStorage.getAudioData AudioStorage.requestFailEnv 5 =
      .error "request error" ∧
    AudioStorage.saveAudioData AudioStorage.requestFailEnv 5 [9] =
      .error "request error" ∧
    AudioStorage.getAudioData
      { setupResult := .error "open failed", records := [(5, [1, 2, 3])],
        requestFails := none } 5 = .ok none ∧
    AudioStorage.getAudioData
      { setupResult := .ok (), records := [], requestFails := none } 5 =
      .ok none :=
  ⟨rfl, rfl, rfl, rfl⟩

/-- Claim C8 (amended): in the backend-authoritative history hook, `add`
applies the in-memory prepend unconditionally — the remote save outcome never
blocks or reverts it — while `clearHistory` clears the in-memory list only
when the remote clear succeeds; a failed remote clear leaves the local list
unchanged. -/
theorem history_local_update_policy :
    (∀ (now : Int) (o : String) (p : Option String) (f : String)
        (ad : Option (List Nat)) (r : Except String Unit)
        (s : BackendHistory.HookState),
        (BackendHistory.addToHistory now o p f ad r s).transcriptionHistory =
          ({ original := o, polished := p, finalText := f, timestamp := now,
             audioData := ad } : TranscriptionHistoryItem) ::
            s.transcriptionHistory) ∧
    (∀ s : BackendHistory.HookState,
        (BackendHistory.clearHistory (.ok ()) s).transcriptionHistory = []) ∧
    (∀ (e : String) (s : BackendHistory.HookState),
        (BackendHistory.clearHistory (.error e) s).transcriptionHistory =
          s.transcriptionHistory) := by
  refine ⟨?_, fun s => rfl, fun e s => rfl⟩
  intro now o p f ad r s
  cases r <;> rfl

/-- Claim C8, counterexample: a `clearHistory` whose remote call fails leaves
the local in-memory list unchanged and non-empty, contradicting the claim
that the in-memory list is empty even when the remote clear fails. -/
theorem clearHistory_remote_failure_cex :
    BackendHistory.oneItemState.transcriptionHistory ≠ [] ∧
    (BackendHistory.clearHistory (.error "network down")
        BackendHistory.oneItemState).transcriptionHistory =
      BackendHistory.oneItemState.transcriptionHistory := by
  exact ⟨by decide, rfl⟩

/-- The lock invariant holds initially. -/
theorem lockInv_init : Controller.lockInv Controller.initState := by
  simp [Controller.lockInv, Controller.initState]

/-- The lock invariant is preserved by every event. -/
theorem lockInv_step (s : Controller.ControllerState) (e : Controller.Ev)
    (h : Controller.lockInv s) : Controller.lockInv (Controller.step s e) := by
  obtain ⟨h1, h2⟩ := h
  cases e with
  | callStart now =>
      simp only [Controller.step, Controller.startRecordingEntry]
      by_cases hl : s.isOperationInProgress = true
      · simp only [hl, if_true]
        exact ⟨h1, h2⟩
      · have hp : s.pending = [] := by
          by_contra hne
          exact hl (h2.mpr hne)
        simp [hl, hp, Controller.lockInv]
  | callStop =>
      simp only [Controller.step, Controller.stopRecordingEntry]
      by_cases hl : s.isOperationInProgress = true
      · simp only [hl, if_true]
        exact ⟨h1, h2⟩
      · have hp : s.pending = [] := by
          by_contra hne
          exact hl (h2.mpr hne)
        simp [hl, hp, Controller.lockInv]
  | beginDone r =>
      simp only [Controller.step]
      split
      · cases r <;> simp [Controller.startRecordingResume, Controller.lockInv]
      · exact ⟨h1, h2⟩
  | captureDone r =>
      simp only [Controller.step]
      split
      · next d heq =>
          have hlk : s.isOperationInProgress = true := by
            apply h2.mpr
            rw [heq]
            simp
          cases r <;> simp [Controller.stopCaptureResume, Controller.lockInv, hlk]
      · exact ⟨h1, h2⟩
  | transcribeDone now r =>
      simp only [Controller.step]
      split
      · next d a heq =>
          have hlk : s.isOperationInProgress = true := by
            apply h2.mpr
            rw [heq]
            simp
          cases r with
          | error e => simp [Controller.stopTranscribeResume, Controller.lockInv]
          | ok result =>
              simp only [Controller.stopTranscribeResume]
              by_cases hres : result.final_text ≠ "" ∧ result.final_text.trim ≠ ""
              · simp [hres, Controller.lockInv, hlk]
              · simp [hres, Controller.lockInv]
      · exact ⟨h1, h2⟩
  | saveDone r =>
      simp only [Controller.step]
      split
      · next d f heq =>
          have hlk : s.isOperationInProgress = true := by
            apply h2.mpr
            rw [heq]
            simp
          cases r <;> simp [Controller.stopSaveResume, Controller.lockInv, hlk]
      · exact ⟨h1, h2⟩
  | statsDone r =>
      simp only [Controller.step]
      split
      · cases r <;> simp [Controller.stopStatsResume, Controller.lockInv]
      · exact ⟨h1, h2⟩
  | fireErrorTimer =>
      simp only [Controller.step]
      split
      · exact ⟨h1, h2⟩
      · exact ⟨h1, h2⟩

/-- The lock invariant holds in every reachable state. -/
theorem lockInv_run (tr : List Controller.Ev) :
    Controller.lockInv (Controller.run tr) := by
  have hgen : ∀ (l : List Controller.Ev) (s : Controller.ControllerState),
      Controller.lockInv s → Controller.lockInv (l.foldl Controller.step s) := by
    intro l
    induction l with
    | nil => intro s hs; exact hs
    | cons e es ih => intro s hs; exact ih _ (lockInv_step s e hs)
  exact hgen tr _ lockInv_init

/-- Claim C1 (amended): `startRecording` and `stopRecording` are mutually
exclusive via the operation lock — in every reachable state at most one of
the two operations is in flight, the lock is held exactly while one is, and
a call to either operation while the lock is held returns with no state
change at all (silent no-op, nothing queued).  The defensive `startRecording`
has no state gate of its own: the `Idle`-only gating lives in the hotkey
coordinator, so a start call with the lock free does not no-op merely
because the state is not `Idle` (see the counterexample). -/
theorem startStop_mutual_exclusion :
    (∀ tr : List Controller.Ev, ((Controller.run tr).pending).length ≤ 1) ∧
    (∀ tr : List Controller.Ev, (Controller.run tr).pending ≠ [] →
        (Controller.run tr).isOperationInProgress = true) ∧
    (∀ (s : Controller.ControllerState) (now : Int),
        s.isOperationInProgress = true →
        Controller.step s (.callStart now) = s ∧
        Controller.step s .callStop = s) := by
  refine ⟨fun tr => (lockInv_run tr).1, fun tr h => (lockInv_run tr).2.mpr h, ?_⟩
  intro s now h
  constructor <;>
    simp [Controller.step, Controller.startRecordingEntry,
      Controller.stopRecordingEntry, h]

/-- Claim C1, witness: with one start in flight (lock held), both a second
start and a stop are exact no-ops. -/
theorem startStop_mutual_exclusion_witness :
    Controller.step (Controller.run [.callStart 0]) (.callStart 100) =
      Controller.run [.callStart 0] ∧
    Controller.step (Controller.run [.callStart 0]) .callStop =
      Controller.run [.callStart 0] :=
  startStop_mutual_exclusion.2.2 (Controller.run [.callStart 0]) 100 rfl

/-- Claim C1, counterexample: after a successful start settles, the lock is
free while the state is `recording`; a second `startRecording` call then is
not a no-op — it changes state and issues a second remote begin-capture
call — refuting the part of the claim that `startRecording` no-ops whenever
the current state is not `Idle`. -/
theorem startRecording_no_idle_guard_cex :
    Controller.recordingUnlocked.isOperationInProgress = false ∧
    Controller.recordingUnlocked.store.recordingState = .recording ∧
    Controller.step Controller.recordingUnlocked (.callStart 400) ≠
      Controller.recordingUnlocked ∧
    (Controller.step Controller.recordingUnlocked (.callStart 400)).calls =
      [.start_recording, .start_recording] := by
  refine ⟨rfl, rfl, ?_, rfl⟩
  intro hcontr
  have hp := congrArg Controller.ControllerState.pending hcontr
  simp [Controller.recordingUnlocked, Controller.run, Controller.step,
    Controller.startRecordingEntry, Controller.startRecordingResume,
    Controller.initState] at hp

/-- Claim C2: when the remote begin-capture call fails, the controller goes
from `recording` directly back to `idle` — the `error` state value is never
assumed — clears `recordingStartTime`, surfaces the message, releases the
lock, and schedules a single 3000 ms timeout whose firing clears only the
error message; the state is `idle` immediately, before that timer fires. -/
theorem startRecording_failure_to_idle (s : Controller.ControllerState)
    (now : Int) (e : String)
    (hlock : s.isOperationInProgress = false)
    (hpend : s.pending = []) (htim : s.errorTimers = []) :
    (Controller.step s (.callStart now)).store.recordingState = .recording ∧
    (Controller.afterStartFailure s now e).store.recordingState = .idle ∧
    (Controller.afterStartFailure s now e).store.recordingStartTime = none ∧
    (Controller.afterStartFailure s now e).store.error = some e ∧
    (Controller.afterStartFailure s now e).errorTimers = [3000] ∧
    (Controller.afterStartFailure s now e).isOperationInProgress = false ∧
    Controller.step (Controller.afterStartFailure s now e) .fireErrorTimer =
      { Controller.afterStartFailure s now e with
        errorTimers := []
        store := { (Controller.afterStartFailure s now e).store with
          error := none } } := by
  simp [Controller.afterStartFailure, Controller.step,
    Controller.startRecordingEntry, Controller.startRecordingResume,
    hlock, hpend, htim]

/-- Claim C2, witness: instantiation of `startRecording_failure_to_idle` at
the initial state with a begin-capture failure message "boom". -/
theorem startRecording_failure_witness :
    (Controller.afterStartFailure Controller.initState 0 "boom").store.recordingState =
      RecordingState.idle ∧
    (Controller.afterStartFailure Controller.initState 0 "boom").store.error =
      some "boom" :=
  ⟨(startRecording_failure_to_idle Controller.initState 0 "boom" rfl rfl
      rfl).2.1,
   (startRecording_failure_to_idle Controller.initState 0 "boom" rfl rfl
      rfl).2.2.2.1⟩

/-- Claim C3: when the finalize-capture call inside `stopRecording` fails,
the controller records the upload size as unset, transitions to `idle`
immediately (error message present, 3000 ms clear-error timeout scheduled,
its firing clears only the message), releases the lock, and returns — the
call log gains only the finalize call, never a transcription call, so phase
2 is skipped entirely. -/
theorem stopRecording_finalize_failure (s : Controller.ControllerState)
    (e : String)
    (hlock : s.isOperationInProgress = false)
    (hpend : s.pending = []) (htim : s.errorTimers = []) :
    (Controller.step s .callStop).store.recordingState = .processing ∧
    (Controller.afterStopFinalizeFailure s e).store.recordingState = .idle ∧
    (Controller.afterStopFinalizeFailure s e).store.uploadSize = none ∧
    (Controller.afterStopFinalizeFailure s e).store.error = some e ∧
    (Controller.afterStopFinalizeFailure s e).errorTimers = [3000] ∧
    (Controller.afterStopFinalizeFailure s e).pending = [] ∧
    (Controller.afterStopFinalizeFailure s e).isOperationInProgress = false ∧
    (Controller.afterStopFinalizeFailure s e).calls =
      s.calls ++ [.stop_recording] ∧
    Controller.step (Controller.afterStopFinalizeFailure s e) .fireErrorTimer =
      { Controller.afterStopFinalizeFailure s e with
        errorTimers := []
        store := { (Controller.afterStopFinalizeFailure s e).store with
          error := none } } := by
  simp [Controller.afterStopFinalizeFailure, Controller.step,
    Controller.stopRecordingEntry, Controller.stopCaptureResume,
    hlock, hpend, htim]

/-- Claim C3, witness: instantiation of `stopRecording_finalize_failure` at
the initial state with a finalize failure message "boom" — afterwards the
call log holds the finalize call only, no transcription call. -/
theorem stopRecording_finalize_failure_witness :
    (Controller.afterStopFinalizeFailure Controller.initState "boom").store.recordingState =
      RecordingState.idle ∧
    (Controller.afterStopFinalizeFailure Controller.initState "boom").calls =
      [.stop_recording] :=
  ⟨(stopRecording_finalize_failure Controller.initState "boom" rfl rfl
      rfl).2.1,
   (stopRecording_finalize_failure Controller.initState "boom" rfl rfl
      rfl).2.2.2.2.2.2.2.1⟩

/-- Taking `n` from an append whose right part is already truncated at `n`
gives the same result as truncating the full append. -/
theorem take_app_take {α : Type _} (n : Nat) (A B : List α) :
    (A ++ B.take n).take n = (A ++ B).take n := by
  rw [List.take_append_eq_append_take, List.take_append_eq_append_take,
      List.take_take]
  rw [Nat.min_eq_left (Nat.sub_le n A.length)]

/-- A non-empty sequence of capped adds equals prepending all items (newest
first) and truncating once at the cap. -/
theorem addAll_eq (adds : List AppStore.AddArgs)
    (history : List AppStore.HistoryItem) (h : adds ≠ []) :
    AppStore.addAll adds history =
      ((adds.map AppStore.mkItem).reverse ++ history).take
        AppStore.MAX_HISTORY_ITEMS := by
  induction adds generalizing history with
  | nil => exact absurd rfl h
  | cons a as ih =>
      cases as with
      | nil => simp [AppStore.addAll, AppStore.addToHistory, AppStore.mkItem]
      | cons b bs =>
          have step1 : AppStore.addAll (a :: b :: bs) history =
              AppStore.addAll (b :: bs)
                (AppStore.addToHistory a.1 a.2.1 a.2.2.1 a.2.2.2 history) :=
            rfl
          rw [step1, ih _ (by simp)]
          have step2 :
              AppStore.addToHistory a.1 a.2.1 a.2.2.1 a.2.2.2 history =
              (AppStore.mkItem a :: history).take
                AppStore.MAX_HISTORY_ITEMS := rfl
          rw [step2, take_app_take]
          congr 1
          simp [List.append_assoc]

/-- Twenty-five capped adds leave exactly the truncation of the reversed add
sequence, independent of the starting history. -/
theorem addAll_25 (adds : List AppStore.AddArgs)
    (history : List AppStore.HistoryItem) (hlen : adds.length = 25) :
    AppStore.addAll adds history =
      ((adds.map AppStore.mkItem).reverse).take 20 := by
  have hne : adds ≠ [] := by
    intro hnil
    rw [hnil] at hlen
    simp at hlen
  rw [addAll_eq adds history hne]
  have hlen2 : 20 ≤ ((adds.map AppStore.mkItem).reverse).length := by
    simp [hlen]
  exact List.take_append_of_le_length hlen2

/-- Claim C4 (amended): in the capped store variant (src/store/appStore.ts),
the history never exceeds 20 entries after an add, and 25 adds with strictly
increasing timestamps (all newer than the starting list) leave exactly the 20
newest items, ordered newest first by timestamp.  The uncapped part_010
variant does not reapply the cap on add (see the counterexample); there the
20-item truncation happens only at load and cross-window sync. -/
theorem history_cap_newest20 :
    (∀ (now : Int) (o : String) (p : Option String) (f : String)
        (history : List AppStore.HistoryItem),
        (AppStore.addToHistory now o p f history).length ≤ 20) ∧
    (∀ (adds : List AppStore.AddArgs) (history : List AppStore.HistoryItem),
        adds.length = 25 →
        List.Pairwise (fun a b : AppStore.AddArgs => a.1 < b.1) adds →
        (∀ y ∈ history, ∀ a ∈ adds, y.timestamp < a.1) →
        AppStore.addAll adds history =
          ((adds.map AppStore.mkItem).reverse).take 20 ∧
        (AppStore.addAll adds history).length = 20 ∧
        List.Pairwise
          (fun x y : AppStore.HistoryItem => y.timestamp < x.timestamp)
          (AppStore.addAll adds history) ∧
        (∀ x ∈ AppStore.addAll adds history,
         ∀ y ∈ history ++ ((adds.map AppStore.mkItem).reverse).drop 20,
            y.timestamp < x.timestamp)) := by
  constructor
  · intro now o p f history
    exact List.length_take_le _ _
  · intro adds history hlen hpw hdom
    have heq := addAll_25 adds history hlen
    have hrev : List.Pairwise
        (fun x y : AppStore.HistoryItem => y.timestamp < x.timestamp)
        ((adds.map AppStore.mkItem).reverse) := by
      rw [List.pairwise_reverse, List.pairwise_map]
      simpa [AppStore.mkItem] using hpw
    have htake : List.Pairwise
        (fun x y : AppStore.HistoryItem => y.timestamp < x.timestamp)
        (((adds.map AppStore.mkItem).reverse).take 20) :=
      List.Pairwise.sublist (List.take_sublist 20 _) hrev
    refine ⟨heq, ?_, heq ▸ htake, ?_⟩
    · rw [heq]
      simp [hlen]
    · intro x hx y hy
      rw [heq] at hx
      rcases List.mem_append.1 hy with hyh | hyd
      · have hx2 : x ∈ (adds.map AppStore.mkItem).reverse :=
          List.mem_of_mem_take hx
        rw [List.mem_reverse] at hx2
        rcases List.mem_map.1 hx2 with ⟨a, ha, hax⟩
        have hts : x.timestamp = a.1 := by rw [← hax]; rfl
        rw [hts]
        exact hdom y hyh a ha
      · have hsplit := hrev
        rw [← List.take_append_drop 20 ((adds.map AppStore.mkItem).reverse),
          List.pairwise_append] at hsplit
        exact hsplit.2.2 x hx y hyd

/-- Claim C4, witness: instantiation of `history_cap_newest20` at 25 adds
with timestamps 0..24 onto the empty history. -/
theorem history_cap_newest20_witness :
    (AppStore.addAll adds25 []).length = 20 :=
  (history_cap_newest20.2 adds25 [] (by decide) (by decide)
    (by intro y hy; simp at hy)).2.1

/-- Claim C4, counterexample: the uncapped `addToHistory` of
src/unnamed/part_010 grows a 20-item history to 21 items — the claimed bound
of 20 does not hold for that cited implementation. -/
theorem addToHistory_uncapped_cex :
    (Part010Store.addToHistory 100 "o" none "t" none (some 100)
      history20).length = 21 := by
  decide

/-- Claim C7: the coordinator ignores any hotkey signal — press or release —
arriving within 300 ms of the last processed signal (the handlers return
before any state change or dispatched call); in particular a press honored
from `idle` at time `t` starts a recording, and a release arriving at
`t + d` with `d < 300` is ignored entirely. -/
theorem hotkey_debounce :
    (∀ (s : Coord.CoordState) (now : Int),
        now - s.lastActionTime < 300 →
        Coord.coordStep s (.press now) = s ∧
        Coord.coordStep s (.release now) = s) ∧
    (∀ (s : Coord.CoordState) (t d : Int),
        s.isProcessingHotkey = false →
        s.observedState = .idle →
        300 ≤ t - s.lastActionTime →
        0 ≤ d → d < 300 →
        (Coord.coordStep s (.press t)).out = s.out ++ [.start] ∧
        Coord.coordStep (Coord.coordStep s (.press t)) (.release (t + d)) =
          Coord.coordStep s (.press t)) := by
  constructor
  · intro s now h
    constructor <;> simp [Coord.coordStep, if_pos h]
  · intro s t d h1 h2 h3 h4 h5
    have hp : Coord.coordStep s (.press t) =
        { s with isProcessingHotkey := true, lastActionTime := t,
                 pendingRelease := false, out := s.out ++ [.start] } := by
      simp [Coord.coordStep, h1, h2, not_lt.2 h3]
    refine ⟨by rw [hp], ?_⟩
    rw [hp]
    have hd : t + d - t = d := by ring
    simp [Coord.coordStep, hd, h5]

/-- Claim C7, witness: instantiation of `hotkey_debounce` at the initial
coordinator state with a press at 1000 and a release at 1150. -/
theorem hotkey_debounce_witness :
    (Coord.coordStep Coord.coordInit (.press 1000)).out = [.start] ∧
    Coord.coordStep (Coord.coordStep Coord.coordInit (.press 1000))
        (.release (1000 + 150)) =
      Coord.coordStep Coord.coordInit (.press 1000) := by
  have h := hotkey_debounce.2 Coord.coordInit 1000 150 rfl rfl
    (by decide) (by decide) (by decide)
  exact ⟨h.1, h.2⟩

/-- Claim C6 (amended): a release arriving while the in-flight guard is set
is recorded as a pending release and honored at `recording` — provided it
survives the debounce gate (at least 300 ms since the last processed signal)
and the observed state is not already `recording`; when the observed state is
`recording` the stop is dispatched immediately instead. -/
theorem pending_release_honored :
    (∀ (s : Coord.CoordState) (now : Int),
        300 ≤ now - s.lastActionTime →
        s.observedState ≠ .recording →
        s.isProcessingHotkey = true →
        Coord.coordStep s (.release now) = { s with pendingRelease := true }) ∧
    (∀ s : Coord.CoordState, s.pendingRelease = true →
        Coord.coordStep s (.stateChanged .recording) =
          { s with observedState := .recording, pendingRelease := false,
                   out := s.out ++ [.stop] }) ∧
    (∀ (s : Coord.CoordState) (now : Int),
        300 ≤ now - s.lastActionTime →
        s.observedState = .recording →
        Coord.coordStep s (.release now) =
          { s with lastActionTime := now, out := s.out ++ [.stop] }) := by
  refine ⟨?_, ?_, ?_⟩
  · intro s now h1 h2 h3
    simp [Coord.coordStep, not_lt.2 h1, h2, h3]
  · intro s h
    simp [Coord.coordStep, h]
  · intro s now h1 h2
    simp [Coord.coordStep, not_lt.2 h1, h2]

/-- Claim C6, witness: instantiation of `pending_release_honored` — a release
at 1400, 400 ms after a processed press, while the guard is set and the
observed state is still `idle`, is queued; the subsequent transition to
`recording` dispatches the stop. -/
theorem pending_release_honored_witness :
    Coord.coordStep
        { lastActionTime := 1000, isProcessingHotkey := true,
          pendingRelease := false, observedState := .idle,
          out := [.start] } (.release 1400) =
      { lastActionTime := 1000, isProcessingHotkey := true,
        pendingRelease := true, observedState := .idle, out := [.start] } ∧
    Coord.coordStep
        { lastActionTime := 1000, isProcessingHotkey := true,
          pendingRelease := true, observedState := .idle,
          out := [.start] } (.stateChanged .recording) =
      { lastActionTime := 1000, isProcessingHotkey := true,
        pendingRelease := false, observedState := .recording,
        out := [.start, .stop] } := by
  constructor
  · exact pending_release_honored.1
      { lastActionTime := 1000, isProcessingHotkey := true,
        pendingRelease := false, observedState := .idle, out := [.start] }
      1400 (by decide) (by decide) rfl
  · exact pending_release_honored.2.1
      { lastActionTime := 1000, isProcessingHotkey := true,
        pendingRelease := true, observedState := .idle, out := [.start] }
      rfl

/-- Claim C6, counterexample: a release arriving 100 ms after the press that
set the in-flight guard is discarded by the debounce gate — the coordinator
state is unchanged and no pending release is recorded, so the release is
dropped, contradicting the claim that every release arriving while the guard
is set is queued. -/
theorem release_during_start_debounced_cex :
    (Coord.coordStep Coord.coordInit (.press 1000)).isProcessingHotkey =
      true ∧
    Coord.coordStep (Coord.coordStep Coord.coordInit (.press 1000))
        (.release 1100) =
      Coord.coordStep Coord.coordInit (.press 1000) ∧
    (Coord.coordStep (Coord.coordStep Coord.coordInit (.press 1000))
        (.release 1100)).pendingRelease = false := by
  refine ⟨by decide, by decide, by decide⟩

end FluxVoice
